import Mathlib

/-!
Verification of the ImageCompressor client-side batch image compressor
(src/ImageCompressor/script.js) against its natural-language specification.

The per-image compression pipeline (`compressImage`, script.js lines 123-199)
and the batch orchestrator (`processFiles`, lines 311-365) are shallowly
embedded below.  Browser-provided operations that are external to the
repository's code (file reading via FileReader, image decoding via the Image
element, canvas re-encoding via toDataURL) are modelled as an explicit
environment `Env` of oracle functions.  JS numbers are IEEE-754 binary64
doubles; the resize arithmetic — the one place where rounding is observable
— is modelled exactly: each operation's exact rational result is passed
through `fl`, an exact model over `ℚ` of round-to-nearest-even at 53-bit
precision, and assignment of a fractional value to a canvas dimension is
modelled as truncation toward zero (floor, since all values are
nonnegative).  Byte contents are `List Nat`.  The order in which the source
performs read, decode, render and encode work is recorded as a trace of
`Event`s, so that claims about when an error is raised relative to that work
can be settled.
-/

namespace ImageCompressor

/-- A decoded pixel surface: the `img` element after `onload`, carrying its
natural width and height (script.js line 136). -/
structure Img where
  width : Nat
  height : Nat
deriving DecidableEq, Repr

/-- A user-supplied file: name, declared media type (`file.type`) and raw
byte content.  `file.size` is the byte length. -/
structure SourceFile where
  name : String
  type : String
  bytes : List Nat
deriving DecidableEq, Repr

/-- `file.size`: the byte length of the file. -/
def SourceFile.size (f : SourceFile) : Nat := f.bytes.length

/-- A blob: declared content type plus byte content (script.js line 178;
in the fallback branch the original `File` itself is used as the blob). -/
structure Blob where
  type : String
  bytes : List Nat
deriving DecidableEq, Repr

/-- `blob.size`: the byte length of a blob. -/
def Blob.size (b : Blob) : Nat := b.bytes.length

/-- The value resolved by `compressImage` (script.js lines 183-189), minus
the preview data URL, which is presentation-only. -/
structure CompressOutput where
  compressedBlob : Blob
  compressedSize : Nat
deriving DecidableEq, Repr

/-- The three rejection paths of `compressImage`:
line 163 (`Unsupported file format.`), line 193 (`Failed to load image.`),
line 196 (`Failed to read file.`). -/
inductive CompressError where
  | unsupportedFormat
  | imageLoadFailed
  | fileReadFailed
deriving DecidableEq, Repr

/-- The `error.message` strings passed to `reject` in script.js. -/
def CompressError.message : CompressError → String
  | CompressError.unsupportedFormat => "Unsupported file format."
  | CompressError.imageLoadFailed => "Failed to load image."
  | CompressError.fileReadFailed => "Failed to read file."

/-- Units of work `compressImage` performs on a file's bytes, in the order
they appear in its trace: FileReader read, Image decode, canvas draw
(`ctx.drawImage`, line 148), canvas re-encode (`canvas.toDataURL(mimeType,
quality)`, line 167). -/
inductive Event where
  | readFile
  | decodeImage
  | renderCanvas (w h : Nat)
  | encodeCanvas (mime : String) (quality : ℚ)
deriving DecidableEq, Repr

/-- Browser capabilities used by the pipeline, external to the repository:
whether FileReader succeeds on the bytes, what the Image element decodes the
bytes to (`none` models `img.onerror`), and the bytes `canvas.toDataURL`
produces for a given decoded image drawn on a canvas of the given
dimensions with the given mime type and quality.  A conforming browser
returns a data URL whose content type equals the requested mime type, which
is what the blob-construction code at lines 170-178 parses back out. -/
structure Env where
  decode : List Nat → Option Img
  encode : Img → Nat → Nat → String → ℚ → List Nat
  readOk : List Nat → Bool

/-- The fixed maximum dimension constant (script.js line 135). -/
def MAX_DIMENSION : Nat := 1920

/-- The supported media type strings (script.js lines 153-161, 318-319). -/
def mimeJpeg : String := "image/jpeg"

/-- The PNG media type string. -/
def mimePng : String := "image/png"

/-- The WebP media type string. -/
def mimeWebp : String := "image/webp"

/-- The fixed quality factor 0.25 passed to `canvas.toDataURL`
(script.js lines 155, 158, 161). -/
def qualityFactor : ℚ := 0.25

/-- Round a rational to the nearest integer, ties to even — the IEEE-754
default rounding, applied to a value already scaled into units of the last
mantissa bit. -/
def roundNearestEven (x : ℚ) : ℤ :=
  if x - ⌊x⌋ < 1 / 2 then ⌊x⌋
  else if 1 / 2 < x - ⌊x⌋ then ⌊x⌋ + 1
  else if ⌊x⌋ % 2 = 0 then ⌊x⌋ else ⌊x⌋ + 1

/-- Binary64 (IEEE-754 double) rounding of a positive rational in the
normal finite range: the value is scaled by its binade so that its mantissa
occupies 53 bits, rounded to nearest-even, and scaled back.  JS numbers are
doubles, so each arithmetic operation of the resize logic rounds its exact
result through `fl`; integer dimensions and the constant 1920 are exactly
representable and need no rounding.  Non-positive inputs (never produced by
the resize logic) are mapped to 0. -/
def fl (x : ℚ) : ℚ :=
  if 0 < x then
    ((roundNearestEven (x / 2 ^ (Int.log 2 x - 52)) : ℤ) : ℚ) *
      2 ^ (Int.log 2 x - 52)
  else 0

/-- `Math.min(MAX_DIMENSION / width, MAX_DIMENSION / height)`
(script.js line 139): each division is a binary64 operation, so its exact
quotient is rounded through `fl`; `Math.min` on doubles is exact. -/
def resizeScale (w h : Nat) : ℚ :=
  min (fl ((MAX_DIMENSION : ℚ) / (w : ℚ))) (fl ((MAX_DIMENSION : ℚ) / (h : ℚ)))

/-- The resize logic of script.js lines 138-145: if either natural dimension
exceeds `MAX_DIMENSION`, each canvas dimension is set to the binary64
product of the natural dimension and `resizeScale` (truncated to an integer
by the canvas width/height setter); otherwise the canvas gets the natural
dimensions. -/
def targetDims (w h : Nat) : Nat × Nat :=
  if MAX_DIMENSION < w ∨ MAX_DIMENSION < h then
    ((⌊fl ((w : ℚ) * resizeScale w h)⌋).toNat,
     (⌊fl ((h : ℚ) * resizeScale w h)⌋).toNat)
  else (w, h)

/-- The format/quality dispatch of script.js lines 153-163: JPEG re-encodes
as JPEG, PNG as WebP, WebP as WebP, each at quality 0.25; any other declared
type selects no encoding (the `reject` branch). -/
def encodePolicy (t : String) : Option (String × ℚ) :=
  if t = mimeJpeg then some (mimeJpeg, qualityFactor)
  else if t = mimePng then some (mimeWebp, qualityFactor)
  else if t = mimeWebp then some (mimeWebp, qualityFactor)
  else none

/-- `compressImage` (script.js lines 123-199).  Returns the trace of work
performed on the file's bytes together with the settled promise.  Faithful
to the source's order of operations: the bytes are read, then decoded, then
drawn onto the resized canvas (line 148), and only then is the declared
media type dispatched on (lines 153-163) — so an unsupported type is
rejected after decode and render, before re-encode.  On the encode path,
if the re-encoded byte length is `>=` the original size the original bytes,
type and size are resolved unchanged (lines 182-187), otherwise the
re-encoded blob and its length are resolved as-is (line 189). -/
def compressImage (env : Env) (f : SourceFile) :
    List Event × Except CompressError CompressOutput :=
  if env.readOk f.bytes then
    match env.decode f.bytes with
    | some img =>
      match encodePolicy f.type with
      | some p =>
        let enc := env.encode img (targetDims img.width img.height).1
          (targetDims img.width img.height).2 p.1 p.2
        ([Event.readFile, Event.decodeImage,
          Event.renderCanvas (targetDims img.width img.height).1
            (targetDims img.width img.height).2,
          Event.encodeCanvas p.1 p.2],
         if f.size ≤ enc.length then
           Except.ok ⟨⟨f.type, f.bytes⟩, f.size⟩
         else
           Except.ok ⟨⟨p.1, enc⟩, enc.length⟩)
      | none =>
        ([Event.readFile, Event.decodeImage,
          Event.renderCanvas (targetDims img.width img.height).1
            (targetDims img.width img.height).2],
         Except.error CompressError.unsupportedFormat)
    | none => ([Event.readFile], Except.error CompressError.imageLoadFailed)
  else ([], Except.error CompressError.fileReadFailed)

/-- The toast notifications `processFiles` can emit: the no-supported-files
notice (line 324), the per-file failure notice (line 354) and the batch
completion notice (line 361). -/
inductive Toast where
  | noSupportedFiles
  | fileFailed (name msg : String)
  | batchComplete (count : Nat)
deriving DecidableEq, Repr

/-- One per-file entry of the batch outcome: either a result card's data for
a successfully compressed file (lines 340-348) or a failure record carrying
the file name and error message (lines 353-354). -/
inductive Outcome where
  | success (f : SourceFile) (out : CompressOutput)
  | failure (name msg : String)
deriving DecidableEq, Repr

/-- The state accumulated by the `for` loop of script.js lines 335-358:
files passed to `compressImage`, per-file outcomes, the progress-bar ratios
written after each file, and the failure toasts shown. -/
structure LoopOut where
  calls : List SourceFile
  outcomes : List Outcome
  progress : List ℚ
  failToasts : List Toast
deriving DecidableEq, Repr

/-- The sequential per-file loop (script.js lines 335-358).  Each iteration
awaits `compressImage`; on success it records a success outcome, on failure
a failure outcome plus a failure toast; either way `completedCount` is
incremented and the progress bar is set to `completedCount / total` (the
source renders this ratio as a `width` percentage string; the emitted value
is modelled as the ratio). -/
def runLoop (env : Env) (total : Nat) : List SourceFile → Nat → LoopOut
  | [], _ => ⟨[], [], [], []⟩
  | f :: rest, completed =>
    let tail := runLoop env total rest (completed + 1)
    match (compressImage env f).2 with
    | Except.ok out =>
      ⟨f :: tail.calls, Outcome.success f out :: tail.outcomes,
       ((completed + 1 : Nat) : ℚ) / (total : ℚ) :: tail.progress,
       tail.failToasts⟩
    | Except.error e =>
      ⟨f :: tail.calls, Outcome.failure f.name e.message :: tail.outcomes,
       ((completed + 1 : Nat) : ℚ) / (total : ℚ) :: tail.progress,
       Toast.fileFailed f.name e.message :: tail.failToasts⟩

/-- The observable behaviour of one `processFiles` call: whether previous
results were cleared, the toasts shown in order, the files handed to the
pipeline, the per-file outcomes, the emitted progress ratios, and the file
count displayed (`none` when the early-return path is taken). -/
structure BatchResult where
  clearedResults : Bool
  toasts : List Toast
  pipelineCalls : List SourceFile
  outcomes : List Outcome
  progress : List ℚ
  fileCountShown : Option Nat
deriving DecidableEq, Repr

/-- Whether a declared media type passes the orchestrator's filter
(script.js lines 318-320). -/
def supportedType (t : String) : Bool :=
  t == mimeJpeg || t == mimePng || t == mimeWebp

/-- `processFiles` (script.js lines 311-365).  Previous results are always
cleared first (lines 313-315).  The input is filtered to the supported
types; if nothing remains, a single no-supported-files toast is shown when
the input was non-empty (lines 322-327) and the function returns before any
pipeline work.  Otherwise the sequential loop runs over the accepted files
and the batch-complete toast is shown with the completed count, which by
then equals the accepted count. -/
def processFiles (env : Env) (files : List SourceFile) : BatchResult :=
  let supportedFiles := files.filter fun f => supportedType f.type
  if supportedFiles.length = 0 then
    ⟨true, if 0 < files.length then [Toast.noSupportedFiles] else [],
     [], [], [], none⟩
  else
    let lo := runLoop env supportedFiles.length supportedFiles 0
    ⟨true, lo.failToasts ++ [Toast.batchComplete supportedFiles.length],
     lo.calls, lo.outcomes, lo.progress, some supportedFiles.length⟩

/-- The batch-outcome entry `processFiles` records for one accepted file: a
success entry pairing the file with the pipeline's output (lines 337-348),
or a failure entry carrying the file name and error message (lines 352-354). -/
def outcomeOf (env : Env) (f : SourceFile) : Outcome :=
  match (compressImage env f).2 with
  | Except.ok out => Outcome.success f out
  | Except.error e => Outcome.failure f.name e.message

/-- The failure toast `processFiles` shows for one accepted file, present
exactly when its pipeline invocation fails (line 354). -/
def failNoticeOf (env : Env) (f : SourceFile) : Option Toast :=
  match (compressImage env f).2 with
  | Except.ok _ => none
  | Except.error e => some (Toast.fileFailed f.name e.message)

/-- The separator used by the file-name manipulations of `createResultCard`. -/
def dotSep : String := "."

/-- The empty string. -/
def emptyStr : String := ""

/-- The forward-slash character excluded by the extension-stripping regex. -/
def slashChar : Char := '/'

/-- The substring `finalBlob.type.includes(...)` is tested against
(script.js line 219). -/
def webpSub : String := "webp"

/-- The literal spliced into the suggested download name
(script.js line 228). -/
def compressedSuffix : String := "_compressed"

/-- JavaScript `s.includes(pat)` for a non-empty pattern: true iff `pat`
occurs in `s`, modelled via `splitOn` producing more than one piece. -/
def jsIncludes (s pat : String) : Bool :=
  if 2 ≤ (s.splitOn pat).length then true else false

/-- JavaScript `name.split('.').pop()` (script.js line 213): the part after
the last dot, or the whole name when it has no dot. -/
def lastDotPart (name : String) : String :=
  (name.splitOn dotSep).getLastD emptyStr

/-- JavaScript `name.replace(/\.[^/.]+$/, "")` (script.js line 217): drop a
trailing dot-extension whose characters contain no dot and no slash; when no
such suffix exists the name is unchanged. -/
def stripExtension (name : String) : String :=
  let parts := name.splitOn dotSep
  if 2 ≤ parts.length ∧ parts.getLastD emptyStr ≠ emptyStr ∧
      (parts.getLastD emptyStr).contains slashChar = false then
    String.intercalate dotSep parts.dropLast
  else name

/-- JavaScript `Number.prototype.toFixed(1)` on an exact rational: the
multiple of 1/10 closest to the value, ties resolved to the larger. -/
def toFixed1 (x : ℚ) : ℚ := ((⌊x * 10 + 1 / 2⌋ : ℤ) : ℚ) / 10

/-- The data shown on a result card relevant to the spec: the suggested
download file name (`data-filename`), the numeric reduction percentage
displayed (0 on the fallback branch, which shows the literal `0% Reduction
(Used Original)` label), whether the original was used, and the size-bar
width percentage. -/
structure ResultCard where
  downloadName : String
  reductionShown : ℚ
  usedOriginal : Bool
  barWidthPercent : ℚ
deriving DecidableEq, Repr

/-- `createResultCard` (script.js lines 211-233), restricted to the fields
above; the preview data URL and DOM markup are presentation-only.  When the
final size is strictly smaller than the original, the download name is
`<stem>_compressed.<ext>` with `<ext>` being `webp` when the blob type
contains `webp` and the original last dot-part otherwise, and the badge
shows `(100 - (final/original)*100).toFixed(1)`; otherwise the download
name is the untouched original name and the badge shows `0%`. -/
def createResultCard (originalFile : SourceFile) (finalSize : Nat)
    (finalBlob : Blob) : ResultCard :=
  let originalSize := originalFile.size
  let originalFormat := lastDotPart originalFile.name
  let baseName := stripExtension originalFile.name
  let isWebP := jsIncludes finalBlob.type webpSub
  let finalExtension := if isWebP then webpSub else originalFormat
  let reductionPercentage : ℚ := ((finalSize : ℚ) / (originalSize : ℚ)) * 100
  if finalSize < originalSize then
    ⟨baseName ++ compressedSuffix ++ dotSep ++ finalExtension,
     toFixed1 (100 - reductionPercentage), false,
     min reductionPercentage 100⟩
  else
    ⟨originalFile.name, 0, true, min reductionPercentage 100⟩

/-- A small decoded image used in concrete instantiations. -/
def imgSmall : Img := ⟨10, 8⟩

/-- A six-byte content used in concrete instantiations. -/
def bytesSix : List Nat := [10, 20, 30, 40, 50, 60]

/-- A six-byte JPEG file. -/
def fileJpeg : SourceFile := ⟨"photo.jpg", mimeJpeg, bytesSix⟩

/-- A six-byte PNG file. -/
def filePng : SourceFile := ⟨"pic.png", mimePng, bytesSix⟩

/-- A six-byte file with an unsupported declared media type. -/
def filePdf : SourceFile := ⟨"doc.pdf", "application/pdf", bytesSix⟩

/-- A ten-byte PNG file used for the result-card instantiation. -/
def filePngTen : SourceFile := ⟨"art.png", mimePng, List.replicate 10 5⟩

/-- A six-byte WebP blob used for the result-card instantiation. -/
def blobWebpSix : Blob := ⟨mimeWebp, [1, 2, 3, 4, 5, 6]⟩

/-- An environment whose reads succeed, whose decoder always yields
`imgSmall`, and whose encoder always yields three bytes (smaller than the
six-byte fixtures, so re-encoding wins). -/
def envSmallOut : Env :=
  ⟨fun _ => some imgSmall, fun _ _ _ _ _ => [1, 2, 3], fun _ => true⟩

/-- An environment whose encoder always yields nine bytes (larger than the
six-byte fixtures, so the fallback triggers). -/
def envBigOut : Env :=
  ⟨fun _ => some imgSmall, fun _ _ _ _ _ => List.replicate 9 7, fun _ => true⟩

/-- A media type rejected by the orchestrator's filter selects no encoding
in the pipeline's dispatch. -/
theorem encodePolicy_eq_none (t : String) (h : supportedType t = false) :
    encodePolicy t = none := by
  unfold supportedType at h
  simp only [Bool.or_eq_false_iff, beq_eq_false_iff_ne, ne_eq] at h
  unfold encodePolicy
  rw [if_neg h.1.1, if_neg h.1.2, if_neg h.2]

/-- A media type accepted by the orchestrator's filter selects an encoding
in the pipeline's dispatch. -/
theorem encodePolicy_isSome (t : String) (h : supportedType t = true) :
    (encodePolicy t).isSome = true := by
  unfold supportedType at h
  simp only [Bool.or_eq_true, beq_iff_eq] at h
  rcases h with (h | h) | h <;> subst h <;> rfl

/-- Claim C1: whenever `compressImage` resolves, the resolved
`compressedSize` is at most the original file size — the re-encoded result
is only kept when strictly smaller, and the fallback echoes the original
size. -/
theorem compress_size_invariant (env : Env) (f : SourceFile)
    (out : CompressOutput)
    (hok : (compressImage env f).2 = Except.ok out) :
    out.compressedSize ≤ f.size := by
  cases hr : env.readOk f.bytes with
  | false => simp [compressImage, hr] at hok
  | true =>
    cases hd : env.decode f.bytes with
    | none => simp [compressImage, hr, hd] at hok
    | some img =>
      cases hp : encodePolicy f.type with
      | none => simp [compressImage, hr, hd, hp] at hok
      | some p =>
        by_cases hsz : f.size ≤
            (env.encode img (targetDims img.width img.height).1
              (targetDims img.width img.height).2 p.1 p.2).length
        · simp only [compressImage, hr, hd, hp, if_pos hsz, if_true,
            Except.ok.injEq] at hok
          rw [← hok]
        · simp only [compressImage, hr, hd, hp, if_neg hsz, if_true,
            Except.ok.injEq] at hok
          rw [← hok]
          exact le_of_lt (lt_of_not_le hsz)

/-- Claim C1 witness: a concrete environment and file on which the
invariant is instantiated. -/
theorem compress_size_invariant_witness :
    (⟨⟨mimeJpeg, [1, 2, 3]⟩, 3⟩ : CompressOutput).compressedSize ≤
      fileJpeg.size :=
  compress_size_invariant envSmallOut fileJpeg ⟨⟨mimeJpeg, [1, 2, 3]⟩, 3⟩ rfl

/-- Claim C2: on the encode path, if the re-encoded byte length is greater
than or equal to the original byte length the promise resolves with the
original bytes, original media type and original byte length unchanged; if
it is strictly smaller, it resolves with the re-encoded bytes, the
re-encoded media type and the re-encoded byte length as-is. -/
theorem compress_fallback_policy (env : Env) (f : SourceFile) (img : Img)
    (p : String × ℚ) (enc : List Nat)
    (hr : env.readOk f.bytes = true)
    (hd : env.decode f.bytes = some img)
    (hp : encodePolicy f.type = some p)
    (he : env.encode img (targetDims img.width img.height).1
      (targetDims img.width img.height).2 p.1 p.2 = enc) :
    (f.size ≤ enc.length →
      (compressImage env f).2 = Except.ok ⟨⟨f.type, f.bytes⟩, f.size⟩) ∧
    (enc.length < f.size →
      (compressImage env f).2 = Except.ok ⟨⟨p.1, enc⟩, enc.length⟩) := by
  constructor
  · intro hge
    simp [compressImage, hr, hd, hp, he, hge]
  · intro hlt
    simp [compressImage, hr, hd, hp, he, not_le_of_lt hlt]

/-- Claim C2 witness: with a nine-byte re-encoding of a six-byte file the
fallback path returns the original bytes, type and size. -/
theorem compress_fallback_policy_witness :
    (compressImage envBigOut fileJpeg).2 =
      Except.ok ⟨⟨fileJpeg.type, fileJpeg.bytes⟩, fileJpeg.size⟩ :=
  (compress_fallback_policy envBigOut fileJpeg imgSmall
    (mimeJpeg, qualityFactor) (List.replicate 9 7) rfl rfl rfl rfl).1
    (by decide)

/-- Claim C6: the re-encode policy is a function of the declared input
type — JPEG re-encodes as JPEG, PNG as WebP, WebP as WebP, each with
quality factor exactly 0.25 — and on a successful decode the pipeline's
re-encode call uses exactly the policy's mime type and quality. -/
theorem compress_encode_policy (env : Env) (f : SourceFile) (img : Img)
    (hr : env.readOk f.bytes = true)
    (hd : env.decode f.bytes = some img) :
    encodePolicy mimeJpeg = some (mimeJpeg, (0.25 : ℚ)) ∧
    encodePolicy mimePng = some (mimeWebp, (0.25 : ℚ)) ∧
    encodePolicy mimeWebp = some (mimeWebp, (0.25 : ℚ)) ∧
    (f.type = mimeJpeg →
      Event.encodeCanvas mimeJpeg (0.25 : ℚ) ∈ (compressImage env f).1) ∧
    (f.type = mimePng →
      Event.encodeCanvas mimeWebp (0.25 : ℚ) ∈ (compressImage env f).1) ∧
    (f.type = mimeWebp →
      Event.encodeCanvas mimeWebp (0.25 : ℚ) ∈ (compressImage env f).1) := by
  refine ⟨rfl, rfl, rfl, ?_, ?_, ?_⟩ <;> intro ht
  · have hp : encodePolicy f.type = some (mimeJpeg, qualityFactor) := by
      rw [ht]; rfl
    simp [compressImage, hr, hd, hp, qualityFactor]
  · have hp : encodePolicy f.type = some (mimeWebp, qualityFactor) := by
      rw [ht]; rfl
    simp [compressImage, hr, hd, hp, qualityFactor]
  · have hp : encodePolicy f.type = some (mimeWebp, qualityFactor) := by
      rw [ht]; rfl
    simp [compressImage, hr, hd, hp, qualityFactor]

/-- Claim C6 witness: a PNG input's re-encode call requests WebP at
quality 0.25. -/
theorem compress_encode_policy_witness :
    Event.encodeCanvas mimeWebp (0.25 : ℚ) ∈
      (compressImage envSmallOut filePng).1 :=
  (compress_encode_policy envSmallOut filePng imgSmall rfl rfl).2.2.2.2.1 rfl

/-- Claim C4 counterexample: a file with the unsupported declared type
`application/pdf` whose bytes decode fine is rejected with the
unsupported-format error, yet its trace contains the decode and the render
(canvas draw) work — the rejection does not happen before decode/render as
the claim states. -/
theorem compress_unsupported_counterexample :
    (compressImage envSmallOut filePdf).2 =
      Except.error CompressError.unsupportedFormat ∧
    Event.decodeImage ∈ (compressImage envSmallOut filePdf).1 ∧
    Event.renderCanvas 10 8 ∈ (compressImage envSmallOut filePdf).1 :=
  ⟨rfl, by decide, by decide⟩

/-- Claim C4 (amended): for a file whose declared media type is
unsupported, when the read succeeds and the bytes decode, `compressImage`
fails with the unsupported-format error, but only after reading, decoding
and rendering the image — before any re-encode (the trace ends at the
render event).  When the bytes do not decode, the failure is the
decode error instead. -/
theorem compress_unsupported_after_render (env : Env) (f : SourceFile)
    (hs : supportedType f.type = false)
    (hr : env.readOk f.bytes = true) :
    (∀ img, env.decode f.bytes = some img →
      compressImage env f =
        ([Event.readFile, Event.decodeImage,
          Event.renderCanvas (targetDims img.width img.height).1
            (targetDims img.width img.height).2],
         Except.error CompressError.unsupportedFormat)) ∧
    (env.decode f.bytes = none →
      compressImage env f =
        ([Event.readFile], Except.error CompressError.imageLoadFailed)) := by
  constructor
  · intro img hd
    simp [compressImage, hr, hd, encodePolicy_eq_none f.type hs]
  · intro hd
    simp [compressImage, hr, hd]

/-- Claim C4 (amended) witness: the unsupported `application/pdf` file at a
decoding environment. -/
theorem compress_unsupported_after_render_witness :
    compressImage envSmallOut filePdf =
      ([Event.readFile, Event.decodeImage,
        Event.renderCanvas (targetDims imgSmall.width imgSmall.height).1
          (targetDims imgSmall.width imgSmall.height).2],
       Except.error CompressError.unsupportedFormat) :=
  (compress_unsupported_after_render envSmallOut filePdf (by decide)
    rfl).1 imgSmall rfl

/-- The resize scale is symmetric in the two dimensions. -/
theorem resizeScale_comm (w h : Nat) : resizeScale w h = resizeScale h w := by
  unfold resizeScale
  exact min_comm _ _

/-- The nearest-integer rounding is within half a unit of its input. -/
theorem roundNearestEven_abs_le (x : ℚ) :
    |((roundNearestEven x : ℤ) : ℚ) - x| ≤ 1 / 2 := by
  have h1 := Int.floor_le x
  have h2 := Int.lt_floor_add_one x
  unfold roundNearestEven
  split
  · next h =>
    rw [abs_le]
    constructor <;> linarith
  · next h =>
    split
    · next h' =>
      rw [abs_le]
      push_cast
      constructor <;> linarith
    · next h' =>
      split <;>
        (rw [abs_le]
         push_cast
         constructor <;> linarith)

/-- When the fractional part is strictly below one half, the
nearest-integer rounding is the floor. -/
theorem roundNearestEven_eq_floor (x : ℚ) (q : ℤ) (h1 : (q : ℚ) ≤ x)
    (h2 : x < (q : ℚ) + 1 / 2) :
    roundNearestEven x = q := by
  have hf : ⌊x⌋ = q := by
    rw [Int.floor_eq_iff]
    refine ⟨h1, ?_⟩
    linarith
  unfold roundNearestEven
  rw [hf, if_pos (by linarith)]

/-- `Int.log` is pinned by the two binade bounds. -/
theorem int_log_eq_of_bounds (r : ℚ) (e : ℤ) (hr : 0 < r)
    (h1 : (2 : ℚ) ^ e ≤ r) (h2 : r < (2 : ℚ) ^ (e + 1)) :
    Int.log 2 r = e := by
  have hb : (1 : ℕ) < 2 := by norm_num
  have h1' : ((2 : ℕ) : ℚ) ^ e ≤ r := by push_cast; exact h1
  have h2' : r < ((2 : ℕ) : ℚ) ^ (e + 1) := by push_cast; exact h2
  have hle := (Int.zpow_le_iff_le_log hb hr).mp h1'
  have hlt := (Int.lt_zpow_iff_log_lt hb hr).mp h2'
  omega

/-- Evaluation of `fl` from the binade and the rounded mantissa. -/
theorem fl_eval (x : ℚ) (e m : ℤ) (hx : 0 < x)
    (hlog : Int.log 2 x = e)
    (hrne : roundNearestEven (x / 2 ^ (e - 52)) = m) :
    fl x = (m : ℚ) * 2 ^ (e - 52) := by
  unfold fl
  rw [if_pos hx, hlog, hrne]

/-- The binary64 rounding has relative error at most one part in
`2 ^ 53`. -/
theorem fl_bounds (x : ℚ) (hx : 0 < x) :
    x * (1 - 1 / 2 ^ 53) ≤ fl x ∧ fl x ≤ x * (1 + 1 / 2 ^ 53) := by
  unfold fl
  rw [if_pos hx]
  have hc : (0 : ℚ) < 2 ^ (Int.log 2 x - 52) := zpow_pos (by norm_num) _
  have hrne := roundNearestEven_abs_le (x / 2 ^ (Int.log 2 x - 52))
  rw [abs_le] at hrne
  have hyc : x / 2 ^ (Int.log 2 x - 52) * 2 ^ (Int.log 2 x - 52) = x :=
    div_mul_cancel₀ x (ne_of_gt hc)
  have hlo : (x / 2 ^ (Int.log 2 x - 52) - 1 / 2) * 2 ^ (Int.log 2 x - 52) ≤
      ((roundNearestEven (x / 2 ^ (Int.log 2 x - 52)) : ℤ) : ℚ) *
        2 ^ (Int.log 2 x - 52) :=
    mul_le_mul_of_nonneg_right (by linarith [hrne.1]) (le_of_lt hc)
  have hhi : ((roundNearestEven (x / 2 ^ (Int.log 2 x - 52)) : ℤ) : ℚ) *
        2 ^ (Int.log 2 x - 52) ≤
      (x / 2 ^ (Int.log 2 x - 52) + 1 / 2) * 2 ^ (Int.log 2 x - 52) :=
    mul_le_mul_of_nonneg_right (by linarith [hrne.2]) (le_of_lt hc)
  have hhalf : 1 / 2 * 2 ^ (Int.log 2 x - 52) ≤ x / 2 ^ 53 := by
    have hlogx : (2 : ℚ) ^ Int.log 2 x ≤ x := by
      have hz := Int.zpow_log_le_self (b := 2) (by norm_num) hx
      push_cast at hz
      exact hz
    rw [le_div_iff₀ (by positivity : (0 : ℚ) < 2 ^ 53)]
    have hid : (1 / 2 : ℚ) * 2 ^ (Int.log 2 x - 52) * 2 ^ (53 : ℕ) =
        2 ^ Int.log 2 x := by
      have h53 : ((2 : ℚ) ^ (53 : ℕ)) = (2 : ℚ) ^ (53 : ℤ) := by
        norm_cast
      rw [h53, mul_assoc, ← zpow_add₀ (by norm_num : (2 : ℚ) ≠ 0)]
      have he : Int.log 2 x - 52 + 53 = Int.log 2 x + 1 := by ring
      rw [he, zpow_add_one₀ (by norm_num : (2 : ℚ) ≠ 0)]
      ring
    rw [hid]
    exact hlogx
  have hexp1 : (x / 2 ^ (Int.log 2 x - 52) - 1 / 2) * 2 ^ (Int.log 2 x - 52) =
      x - 1 / 2 * 2 ^ (Int.log 2 x - 52) := by
    rw [sub_mul, hyc]
  have hexp2 : (x / 2 ^ (Int.log 2 x - 52) + 1 / 2) * 2 ^ (Int.log 2 x - 52) =
      x + 1 / 2 * 2 ^ (Int.log 2 x - 52) := by
    rw [add_mul, hyc]
  have hxu1 : x * (1 - 1 / 2 ^ 53) = x - x / 2 ^ 53 := by ring
  have hxu2 : x * (1 + 1 / 2 ^ 53) = x + x / 2 ^ 53 := by ring
  constructor
  · rw [hxu1]
    rw [hexp1] at hlo
    linarith
  · rw [hxu2]
    rw [hexp2] at hhi
    linarith

/-- The binary64 rounding of a positive value is positive. -/
theorem fl_pos (x : ℚ) (hx : 0 < x) : 0 < fl x := by
  have h := (fl_bounds x hx).1
  have hu : (0 : ℚ) < 1 - 1 / 2 ^ 53 := by norm_num
  linarith [mul_pos hx hu]

/-- The maximum-dimension constant is positive as a rational. -/
theorem maxdim_q_pos : (0 : ℚ) < (MAX_DIMENSION : ℚ) := by
  norm_num [MAX_DIMENSION]

/-- The resize scale of positive dimensions is positive. -/
theorem resizeScale_pos (w h : Nat) (hw : 0 < w) (hh : 0 < h) :
    0 < resizeScale w h := by
  have hwq : (0 : ℚ) < (w : ℚ) := by exact_mod_cast hw
  have hhq : (0 : ℚ) < (h : ℚ) := by exact_mod_cast hh
  unfold resizeScale
  exact lt_min (fl_pos _ (div_pos maxdim_q_pos hwq))
    (fl_pos _ (div_pos maxdim_q_pos hhq))

/-- Each scaled-and-truncated coordinate is at most the threshold: the
rounded ratio is at most the rounded `1920/x`, and the two binary64
roundings cannot push 1920 up to 1921. -/
theorem scaled_coord_le (w h x : Nat) (hw : 0 < w) (hh : 0 < h)
    (hx : 0 < x)
    (hrx : resizeScale w h ≤ fl ((MAX_DIMENSION : ℚ) / (x : ℚ))) :
    (⌊fl ((x : ℚ) * resizeScale w h)⌋).toNat ≤ MAX_DIMENSION := by
  have hxq : (0 : ℚ) < (x : ℚ) := by exact_mod_cast hx
  have hdiv : (0 : ℚ) < (MAX_DIMENSION : ℚ) / (x : ℚ) :=
    div_pos maxdim_q_pos hxq
  have hrpos := resizeScale_pos w h hw hh
  have h1 : fl ((MAX_DIMENSION : ℚ) / (x : ℚ)) ≤
      (MAX_DIMENSION : ℚ) / (x : ℚ) * (1 + 1 / 2 ^ 53) := (fl_bounds _ hdiv).2
  have h2 : (x : ℚ) * resizeScale w h ≤
      (MAX_DIMENSION : ℚ) * (1 + 1 / 2 ^ 53) := by
    calc (x : ℚ) * resizeScale w h
        ≤ (x : ℚ) * ((MAX_DIMENSION : ℚ) / (x : ℚ) * (1 + 1 / 2 ^ 53)) :=
          mul_le_mul_of_nonneg_left (le_trans hrx h1) (le_of_lt hxq)
      _ = (MAX_DIMENSION : ℚ) * (1 + 1 / 2 ^ 53) := by
          field_simp
          ring
  have hppos : (0 : ℚ) < (x : ℚ) * resizeScale w h := mul_pos hxq hrpos
  have h4 : fl ((x : ℚ) * resizeScale w h) ≤
      (MAX_DIMENSION : ℚ) * (1 + 1 / 2 ^ 53) * (1 + 1 / 2 ^ 53) := by
    calc fl ((x : ℚ) * resizeScale w h)
        ≤ (x : ℚ) * resizeScale w h * (1 + 1 / 2 ^ 53) := (fl_bounds _ hppos).2
      _ ≤ (MAX_DIMENSION : ℚ) * (1 + 1 / 2 ^ 53) * (1 + 1 / 2 ^ 53) :=
          mul_le_mul_of_nonneg_right h2 (by positivity)
  have h6 : ⌊fl ((x : ℚ) * resizeScale w h)⌋ < (MAX_DIMENSION : ℤ) + 1 := by
    rw [Int.floor_lt]
    refine lt_of_le_of_lt h4 ?_
    push_cast
    norm_num [MAX_DIMENSION]
  have h7 : ⌊fl ((x : ℚ) * resizeScale w h)⌋ ≤ (MAX_DIMENSION : ℤ) := by
    omega
  calc (⌊fl ((x : ℚ) * resizeScale w h)⌋).toNat
      ≤ ((MAX_DIMENSION : ℤ)).toNat := Int.toNat_le_toNat h7
    _ = MAX_DIMENSION := Int.toNat_natCast _

/-- The larger native dimension's scaled-and-truncated coordinate is at
least 1919: every rounded division is at least `(1920/s)(1 - u)`, and the
two binary64 roundings cannot pull 1920 below 1919. -/
theorem scaled_larger_ge (w h : Nat) (hw : 0 < w) (hh : 0 < h)
    (hle : h ≤ w) :
    1919 ≤ (⌊fl ((w : ℚ) * resizeScale w h)⌋).toNat := by
  have hwq : (0 : ℚ) < (w : ℚ) := by exact_mod_cast hw
  have hhq : (0 : ℚ) < (h : ℚ) := by exact_mod_cast hh
  have hleq : (h : ℚ) ≤ (w : ℚ) := by exact_mod_cast hle
  have hdivw : (0 : ℚ) < (MAX_DIMENSION : ℚ) / (w : ℚ) :=
    div_pos maxdim_q_pos hwq
  have hdivh : (0 : ℚ) < (MAX_DIMENSION : ℚ) / (h : ℚ) :=
    div_pos maxdim_q_pos hhq
  have hdm : (MAX_DIMENSION : ℚ) / (w : ℚ) ≤ (MAX_DIMENSION : ℚ) / (h : ℚ) := by
    rw [div_le_div_iff₀ hwq hhq]
    exact mul_le_mul_of_nonneg_left hleq (le_of_lt maxdim_q_pos)
  have hlo : (MAX_DIMENSION : ℚ) / (w : ℚ) * (1 - 1 / 2 ^ 53) ≤
      resizeScale w h := by
    unfold resizeScale
    refine le_min ((fl_bounds _ hdivw).1) ?_
    refine le_trans ?_ ((fl_bounds _ hdivh).1)
    exact mul_le_mul_of_nonneg_right hdm (by norm_num)
  have hprod : (MAX_DIMENSION : ℚ) * (1 - 1 / 2 ^ 53) ≤
      (w : ℚ) * resizeScale w h := by
    calc (MAX_DIMENSION : ℚ) * (1 - 1 / 2 ^ 53)
        = (w : ℚ) * ((MAX_DIMENSION : ℚ) / (w : ℚ) * (1 - 1 / 2 ^ 53)) := by
          field_simp
          ring
      _ ≤ (w : ℚ) * resizeScale w h :=
          mul_le_mul_of_nonneg_left hlo (le_of_lt hwq)
  have hppos : (0 : ℚ) < (w : ℚ) * resizeScale w h :=
    mul_pos hwq (resizeScale_pos w h hw hh)
  have hfll : (MAX_DIMENSION : ℚ) * (1 - 1 / 2 ^ 53) * (1 - 1 / 2 ^ 53) ≤
      fl ((w : ℚ) * resizeScale w h) := by
    calc (MAX_DIMENSION : ℚ) * (1 - 1 / 2 ^ 53) * (1 - 1 / 2 ^ 53)
        ≤ (w : ℚ) * resizeScale w h * (1 - 1 / 2 ^ 53) :=
          mul_le_mul_of_nonneg_right hprod (by norm_num)
      _ ≤ fl ((w : ℚ) * resizeScale w h) := (fl_bounds _ hppos).1
  have hfloor : (1919 : ℤ) ≤ ⌊fl ((w : ℚ) * resizeScale w h)⌋ := by
    rw [Int.le_floor]
    refine le_trans ?_ hfll
    push_cast
    norm_num [MAX_DIMENSION]
  calc (1919 : ℕ) = ((1919 : ℤ)).toNat := rfl
    _ ≤ (⌊fl ((w : ℚ) * resizeScale w h)⌋).toNat := Int.toNat_le_toNat hfloor

/-- Claim C3 (amended): with both native dimensions at most 1920 the target
render dimensions are exactly the native ones; otherwise both dimensions
are scaled by the same binary64-computed ratio
`min(1920/width, 1920/height)` and truncated, every target side is at most
1920, and the larger native side's target side is at least 1919 — it is
exactly 1920 in exact arithmetic, but one less whenever the binary64
product rounds just below the threshold. -/
theorem targetDims_resize (w h : Nat) (hw : 0 < w) (hh : 0 < h) :
    (w ≤ MAX_DIMENSION ∧ h ≤ MAX_DIMENSION → targetDims w h = (w, h)) ∧
    (MAX_DIMENSION < w ∨ MAX_DIMENSION < h →
      targetDims w h =
        ((⌊fl ((w : ℚ) * resizeScale w h)⌋).toNat,
         (⌊fl ((h : ℚ) * resizeScale w h)⌋).toNat) ∧
      (targetDims w h).1 ≤ MAX_DIMENSION ∧
      (targetDims w h).2 ≤ MAX_DIMENSION ∧
      MAX_DIMENSION - 1 ≤ max (targetDims w h).1 (targetDims w h).2) := by
  constructor
  · rintro ⟨h1, h2⟩
    have hcond : ¬ (MAX_DIMENSION < w ∨ MAX_DIMENSION < h) := by
      push_neg
      exact ⟨h1, h2⟩
    unfold targetDims
    rw [if_neg hcond]
  · intro hbig
    have heq : targetDims w h =
        ((⌊fl ((w : ℚ) * resizeScale w h)⌋).toNat,
         (⌊fl ((h : ℚ) * resizeScale w h)⌋).toNat) := by
      unfold targetDims
      rw [if_pos hbig]
    have hm : MAX_DIMENSION - 1 = 1919 := rfl
    refine ⟨heq, ?_, ?_, ?_⟩
    · rw [heq]
      exact scaled_coord_le w h w hw hh hw (min_le_left _ _)
    · rw [heq]
      exact scaled_coord_le w h h hw hh hh (min_le_right _ _)
    · rw [heq, hm]
      dsimp only
      rcases le_total h w with hcase | hcase
      · exact le_trans (scaled_larger_ge w h hw hh hcase) (le_max_left _ _)
      · refine le_trans ?_ (le_max_right _ _)
        rw [resizeScale_comm w h]
        exact scaled_larger_ge h w hh hw hcase

/-- Claim C3 (amended) witness: a small image is untouched and an oversized
3840x2160 image's target sides stay inside the threshold band. -/
theorem targetDims_resize_witness :
    targetDims 100 200 = (100, 200) ∧
    (targetDims 3840 2160).1 ≤ MAX_DIMENSION ∧
    MAX_DIMENSION - 1 ≤
      max (targetDims 3840 2160).1 (targetDims 3840 2160).2 :=
  ⟨(targetDims_resize 100 200 (by decide) (by decide)).1 (by decide),
   ((targetDims_resize 3840 2160 (by decide) (by decide)).2
      (Or.inl (by decide))).2.1,
   ((targetDims_resize 3840 2160 (by decide) (by decide)).2
      (Or.inl (by decide))).2.2.2⟩

/-- The binary64 ratio selected for a 2148-wide, 1080-high image: the
rounded quotient `1920/2148`. -/
theorem resizeScale_2148_1080 :
    resizeScale 2148 1080 = 8051127825466808 * (2 : ℚ) ^ (-53 : ℤ) := by
  have hx1 : (0 : ℚ) < (MAX_DIMENSION : ℚ) / ((2148 : ℕ) : ℚ) := by
    norm_num [MAX_DIMENSION]
  have hfl1 : fl ((MAX_DIMENSION : ℚ) / ((2148 : ℕ) : ℚ)) =
      8051127825466808 * (2 : ℚ) ^ (-53 : ℤ) := by
    have hlog : Int.log 2 ((MAX_DIMENSION : ℚ) / ((2148 : ℕ) : ℚ)) = -1 :=
      int_log_eq_of_bounds _ _ hx1 (by norm_num [MAX_DIMENSION])
        (by norm_num [MAX_DIMENSION])
    have hrne : roundNearestEven
        ((MAX_DIMENSION : ℚ) / ((2148 : ℕ) : ℚ) / 2 ^ (-1 - 52 : ℤ)) =
        8051127825466808 :=
      roundNearestEven_eq_floor _ _ (by norm_num [MAX_DIMENSION])
        (by norm_num [MAX_DIMENSION])
    rw [fl_eval _ (-1) 8051127825466808 hx1 hlog hrne]
    norm_num
  have hx2 : (0 : ℚ) < (MAX_DIMENSION : ℚ) / ((1080 : ℕ) : ℚ) := by
    norm_num [MAX_DIMENSION]
  have hfl2 : fl ((MAX_DIMENSION : ℚ) / ((1080 : ℕ) : ℚ)) =
      8006399337547548 * (2 : ℚ) ^ (-52 : ℤ) := by
    have hlog : Int.log 2 ((MAX_DIMENSION : ℚ) / ((1080 : ℕ) : ℚ)) = 0 :=
      int_log_eq_of_bounds _ _ hx2 (by norm_num [MAX_DIMENSION])
        (by norm_num [MAX_DIMENSION])
    have hrne : roundNearestEven
        ((MAX_DIMENSION : ℚ) / ((1080 : ℕ) : ℚ) / 2 ^ (0 - 52 : ℤ)) =
        8006399337547548 :=
      roundNearestEven_eq_floor _ _ (by norm_num [MAX_DIMENSION])
        (by norm_num [MAX_DIMENSION])
    rw [fl_eval _ 0 8006399337547548 hx2 hlog hrne]
    norm_num
  unfold resizeScale
  rw [hfl1, hfl2]
  refine min_eq_left ?_
  norm_num

/-- The binary64 product `2148 * ratio` is 1919.9999999999998…: one ulp
below 1920. -/
theorem fl_w_2148 :
    fl (((2148 : ℕ) : ℚ) * (8051127825466808 * (2 : ℚ) ^ (-53 : ℤ))) =
      8444249301319679 * (2 : ℚ) ^ (-42 : ℤ) := by
  have hx : (0 : ℚ) <
      ((2148 : ℕ) : ℚ) * (8051127825466808 * (2 : ℚ) ^ (-53 : ℤ)) := by
    norm_num
  have hlog : Int.log 2
      (((2148 : ℕ) : ℚ) * (8051127825466808 * (2 : ℚ) ^ (-53 : ℤ))) = 10 :=
    int_log_eq_of_bounds _ _ hx (by norm_num) (by norm_num)
  have hrne : roundNearestEven
      (((2148 : ℕ) : ℚ) * (8051127825466808 * (2 : ℚ) ^ (-53 : ℤ)) /
        2 ^ (10 - 52 : ℤ)) = 8444249301319679 :=
    roundNearestEven_eq_floor _ _ (by norm_num) (by norm_num)
  rw [fl_eval _ 10 8444249301319679 hx hlog hrne]
  norm_num

/-- The binary64 product `1080 * ratio` rounds to about 965.363. -/
theorem fl_h_1080 :
    fl (((1080 : ℕ) : ℚ) * (8051127825466808 * (2 : ℚ) ^ (-53 : ℤ))) =
      8491423878422024 * (2 : ℚ) ^ (-43 : ℤ) := by
  have hx : (0 : ℚ) <
      ((1080 : ℕ) : ℚ) * (8051127825466808 * (2 : ℚ) ^ (-53 : ℤ)) := by
    norm_num
  have hlog : Int.log 2
      (((1080 : ℕ) : ℚ) * (8051127825466808 * (2 : ℚ) ^ (-53 : ℤ))) = 9 :=
    int_log_eq_of_bounds _ _ hx (by norm_num) (by norm_num)
  have hrne : roundNearestEven
      (((1080 : ℕ) : ℚ) * (8051127825466808 * (2 : ℚ) ^ (-53 : ℤ)) /
        2 ^ (9 - 52 : ℤ)) = 8491423878422024 :=
    roundNearestEven_eq_floor _ _ (by norm_num) (by norm_num)
  rw [fl_eval _ 9 8491423878422024 hx hlog hrne]
  norm_num

/-- For a 2148x1080 image the canvas dimensions are 1919x965: the truncated
larger side misses the threshold by one. -/
theorem targetDims_2148_1080 : targetDims 2148 1080 = (1919, 965) := by
  unfold targetDims
  rw [if_pos (by norm_num [MAX_DIMENSION])]
  rw [resizeScale_2148_1080, fl_w_2148, fl_h_1080]
  have hfw : ⌊(8444249301319679 : ℚ) * (2 : ℚ) ^ (-42 : ℤ)⌋ = 1919 := by
    rw [Int.floor_eq_iff]
    norm_num
  have hfh : ⌊(8491423878422024 : ℚ) * (2 : ℚ) ^ (-43 : ℤ)⌋ = 965 := by
    rw [Int.floor_eq_iff]
    norm_num
  rw [hfw, hfh]
  decide

/-- Claim C3 counterexample: the width 2148 exceeds the threshold, yet the
truncated larger target side is 1919, not 1920 — the binary64 product
`2148 * (1920/2148)` is 1919.9999999999998, which the canvas setter
truncates to 1919. -/
theorem targetDims_larger_counterexample :
    MAX_DIMENSION < 2148 ∧
    targetDims 2148 1080 = (1919, 965) ∧
    max (targetDims 2148 1080).1 (targetDims 2148 1080).2 ≠ MAX_DIMENSION := by
  refine ⟨by norm_num [MAX_DIMENSION], targetDims_2148_1080, ?_⟩
  rw [targetDims_2148_1080]
  decide

/-- One step of the progress sequence: shifting the completed counter by
one turns the head off and reindexes the tail. -/
theorem range_ratio_shift (t n c : Nat) :
    (List.range (n + 1)).map
        (fun i => ((c + i + 1 : Nat) : ℚ) / (t : ℚ)) =
      ((c + 1 : Nat) : ℚ) / (t : ℚ) ::
        (List.range n).map
          (fun i => ((c + 1 + i + 1 : Nat) : ℚ) / (t : ℚ)) := by
  rw [List.range_succ_eq_map, List.map_cons, List.map_map]
  refine congrArg₂ _ (by norm_num) ?_
  refine List.map_congr_left ?_
  intro i _
  simp only [Function.comp_apply]
  congr 2
  omega

/-- Closed form of the sequential loop: it calls the pipeline on every
file in order, records one outcome per file, emits the ratio
`completed / total` after each file, and shows one failure toast per
failing file. -/
theorem runLoop_eq (env : Env) (total : Nat) (l : List SourceFile)
    (c : Nat) :
    runLoop env total l c =
      ⟨l, l.map (outcomeOf env),
       (List.range l.length).map
         (fun i => ((c + i + 1 : Nat) : ℚ) / (total : ℚ)),
       l.filterMap (failNoticeOf env)⟩ := by
  induction l generalizing c with
  | nil => rfl
  | cons f rest ih =>
    simp only [runLoop]
    rw [ih (c + 1)]
    rw [List.length_cons, range_ratio_shift]
    cases hres : (compressImage env f).2 with
    | ok out =>
      simp only [outcomeOf, failNoticeOf, hres, List.map_cons,
        List.filterMap_cons]
    | error e =>
      simp only [outcomeOf, failNoticeOf, hres, List.map_cons,
        List.filterMap_cons]

/-- The orchestrator hands the pipeline exactly the accepted files, in
input order. -/
theorem processFiles_calls (env : Env) (files : List SourceFile) :
    (processFiles env files).pipelineCalls =
      files.filter fun f => supportedType f.type := by
  simp only [processFiles]
  by_cases h0 : (files.filter fun f => supportedType f.type).length = 0
  · rw [if_pos h0]
    rw [List.length_eq_zero.mp h0]
  · rw [if_neg h0, runLoop_eq]

/-- Claim C5: the batch outcome has exactly one entry per accepted file, in
input order; a file whose pipeline invocation fails contributes a failure
record carrying its name and the error message while the loop continues,
and a succeeding file contributes its compression result. -/
theorem processFiles_batch_outcomes (env : Env) (files : List SourceFile) :
    (processFiles env files).outcomes =
      (files.filter fun f => supportedType f.type).map (outcomeOf env) := by
  simp only [processFiles]
  by_cases h0 : (files.filter fun f => supportedType f.type).length = 0
  · rw [if_pos h0]
    rw [List.length_eq_zero.mp h0]
    rfl
  · rw [if_neg h0, runLoop_eq]

/-- Claim C7: the orchestrator accepts exactly the files whose declared
media type is one of the three supported types and passes exactly those to
the pipeline; on a non-empty input with no accepted file it shows exactly
the one no-supported-files notice and performs zero pipeline invocations;
on an empty input it shows no notice and performs no processing at all. -/
theorem processFiles_filter_policy (env : Env) (files : List SourceFile) :
    (processFiles env files).pipelineCalls =
      files.filter (fun f => supportedType f.type) ∧
    ((files.filter fun f => supportedType f.type) = [] → files ≠ [] →
      (processFiles env files).toasts = [Toast.noSupportedFiles] ∧
      (processFiles env files).pipelineCalls = []) ∧
    (files = [] →
      (processFiles env files).toasts = [] ∧
      (processFiles env files).pipelineCalls = [] ∧
      (processFiles env files).outcomes = [] ∧
      (processFiles env files).progress = []) := by
  refine ⟨processFiles_calls env files, ?_, ?_⟩
  · intro hnil hne
    have h0 : (files.filter fun f => supportedType f.type).length = 0 := by
      rw [hnil]
      rfl
    constructor
    · simp only [processFiles]
      rw [if_pos h0, if_pos (List.length_pos.mpr hne)]
    · rw [processFiles_calls, hnil]
  · intro hempty
    subst hempty
    exact ⟨rfl, rfl, rfl, rfl⟩

/-- Claim C7 witness: a singleton batch whose only file has an unsupported
type yields exactly the notice and no pipeline invocation. -/
theorem processFiles_filter_policy_witness :
    (processFiles envSmallOut [filePdf]).toasts = [Toast.noSupportedFiles] ∧
    (processFiles envSmallOut [filePdf]).pipelineCalls = [] :=
  (processFiles_filter_policy envSmallOut [filePdf]).2.1 (by decide)
    (by decide)

/-- For a positive total, the emitted ratio sequence is non-decreasing and
ends at exactly 1. -/
theorem ratio_progress_facts (n : Nat) (hn : 0 < n) :
    List.Pairwise (fun a b => a ≤ b)
      ((List.range n).map (fun i => ((i + 1 : Nat) : ℚ) / (n : ℚ))) ∧
    ((List.range n).map
        (fun i => ((i + 1 : Nat) : ℚ) / (n : ℚ))).getLast? = some 1 := by
  have hnq : (0 : ℚ) < (n : ℚ) := by exact_mod_cast hn
  constructor
  · rw [List.pairwise_map]
    refine (List.pairwise_lt_range n).imp ?_
    intro i j hij
    rw [div_le_div_iff_of_pos_right hnq]
    exact_mod_cast Nat.succ_le_succ (le_of_lt hij)
  · cases n with
    | zero => exact absurd hn (by decide)
    | succ m =>
      rw [List.range_succ, List.map_append]
      simp only [List.map_cons, List.map_nil]
      rw [List.getLast?_concat]
      refine congrArg _ ?_
      exact div_self (by positivity)

/-- Claim C8: after each accepted file completes the orchestrator emits the
ratio `completedCount / totalAccepted` (the source renders it as a width
percentage); the emitted sequence is `1/n, 2/n, ..., n/n`, is monotonically
non-decreasing, and its last element is exactly 1 whenever at least one
file was accepted. -/
theorem processFiles_progress_spec (env : Env) (files : List SourceFile) :
    (processFiles env files).progress =
      (List.range (files.filter fun f => supportedType f.type).length).map
        (fun i => ((i + 1 : Nat) : ℚ) /
          (((files.filter fun f => supportedType f.type).length : Nat) : ℚ)) ∧
    List.Pairwise (fun a b => a ≤ b) (processFiles env files).progress ∧
    (0 < (files.filter fun f => supportedType f.type).length →
      (processFiles env files).progress.getLast? = some 1) := by
  have hmain : (processFiles env files).progress =
      (List.range (files.filter fun f => supportedType f.type).length).map
        (fun i => ((i + 1 : Nat) : ℚ) /
          (((files.filter fun f => supportedType f.type).length : Nat) : ℚ)) := by
    simp only [processFiles]
    by_cases h0 : (files.filter fun f => supportedType f.type).length = 0
    · rw [if_pos h0, h0]
      rfl
    · rw [if_neg h0, runLoop_eq]
      dsimp only
      refine List.map_congr_left ?_
      intro i _
      congr 2
      omega
  refine ⟨hmain, ?_, ?_⟩
  · rw [hmain]
    by_cases h0 : (files.filter fun f => supportedType f.type).length = 0
    · rw [h0]
      exact List.Pairwise.nil
    · exact (ratio_progress_facts _ (Nat.pos_of_ne_zero h0)).1
  · intro hpos
    rw [hmain]
    exact (ratio_progress_facts _ hpos).2

/-- Claim C8 witness: a two-file batch's last emitted progress ratio is
exactly 1. -/
theorem processFiles_progress_spec_witness :
    (processFiles envSmallOut [fileJpeg, filePng]).progress.getLast? =
      some 1 :=
  (processFiles_progress_spec envSmallOut [fileJpeg, filePng]).2.2
    (by decide)

/-- Claim C10: every file the orchestrator passes to the pipeline has one
of the three supported declared media types, so no pipeline invocation made
by the orchestrator can fail with the unsupported-format error. -/
theorem pipeline_unsupported_unreachable (env : Env)
    (files : List SourceFile) (f : SourceFile)
    (hf : f ∈ (processFiles env files).pipelineCalls) :
    supportedType f.type = true ∧
    (compressImage env f).2 ≠ Except.error CompressError.unsupportedFormat := by
  rw [processFiles_calls] at hf
  have hsup : supportedType f.type = true := (List.mem_filter.mp hf).2
  refine ⟨hsup, ?_⟩
  cases hr : env.readOk f.bytes with
  | false => simp [compressImage, hr]
  | true =>
    cases hd : env.decode f.bytes with
    | none => simp [compressImage, hr, hd]
    | some img =>
      cases hp : encodePolicy f.type with
      | none =>
        have hcontra := encodePolicy_isSome f.type hsup
        rw [hp] at hcontra
        exact absurd hcontra (by decide)
      | some p =>
        simp only [compressImage, hr, hd, hp, if_true]
        split <;> simp

/-- Claim C10 witness: a JPEG file passed by the orchestrator. -/
theorem pipeline_unsupported_unreachable_witness :
    supportedType fileJpeg.type = true ∧
    (compressImage envSmallOut fileJpeg).2 ≠
      Except.error CompressError.unsupportedFormat :=
  pipeline_unsupported_unreachable envSmallOut [fileJpeg] fileJpeg
    (by decide)

/-- Claim C9: when the final size is strictly smaller than the original the
suggested download name is the original stem followed by `_compressed.` and
an extension that is `webp` exactly when the output blob's type contains
`webp` and the original last dot-part otherwise, and the displayed
reduction percentage is `(1 - final/original) * 100` rounded to one
decimal; when no reduction occurred the suggested name is the untouched
original file name. -/
theorem resultCard_naming (f : SourceFile) (finalSize : Nat) (blob : Blob) :
    (finalSize < f.size →
      (createResultCard f finalSize blob).downloadName =
        stripExtension f.name ++ compressedSuffix ++ dotSep ++
          (if jsIncludes blob.type webpSub then webpSub
           else lastDotPart f.name) ∧
      (createResultCard f finalSize blob).reductionShown =
        toFixed1 ((1 - ((finalSize : ℚ) / ((f.size : ℚ)))) * 100)) ∧
    (¬ finalSize < f.size →
      (createResultCard f finalSize blob).downloadName = f.name) := by
  constructor
  · intro hlt
    simp only [createResultCard, if_pos hlt]
    refine ⟨trivial, ?_⟩
    dsimp only
    congr 1
    ring
  · intro hge
    simp only [createResultCard, if_neg hge]

/-- Claim C9 witness: a ten-byte PNG compressed to a six-byte WebP blob. -/
theorem resultCard_naming_witness :
    (createResultCard filePngTen 6 blobWebpSix).downloadName =
      stripExtension filePngTen.name ++ compressedSuffix ++ dotSep ++
        (if jsIncludes blobWebpSix.type webpSub then webpSub
         else lastDotPart filePngTen.name) ∧
    (createResultCard filePngTen 6 blobWebpSix).reductionShown =
      toFixed1 ((1 - (((6 : Nat) : ℚ) / ((filePngTen.size : ℚ)))) * 100) :=
  (resultCard_naming filePngTen 6 blobWebpSix).1 (by decide)

end ImageCompressor
